import Mathlib

/-!
Shallow embedding of the mini-rxjs reactive-stream engine (`src/index.ts`).

Effects are made explicit: an observer callback is a state transformer over a
world type `σ`, and for the theorems `σ` is instantiated with an event trace
(`List (Ev T E)`), so that "the wrapped observer was invoked" is visible as an
appended trace event.  Mutable fields (`isStopped`, `_teardowns`, the
`debounceTime` timer slot) become fields of explicit state records that every
operation threads through.
-/

namespace MiniRx

/-- Trace events: invocations of a wrapped observer's methods and invocations
of registered teardown actions (a plain procedure `tdFn` versus the
`unsubscribe()` method of an `Unsubscribable`, `tdUnsub`), labelled by `Nat`
identifiers so distinct registrations are distinguishable. -/
inductive Ev (T E : Type) where
  | next (v : T)
  | error (e : E)
  | complete
  | tdFn (id : Nat)
  | tdUnsub (id : Nat)
deriving DecidableEq

/-- `TeardownLogic` minus `void` (`src/index.ts` line 15): either a plain
cleanup procedure (`() => void`) or an entity exposing `unsubscribe()`
(`Unsubscribable`, which includes `Subscription`).  The carried action is the
effect of invoking it, as a state transformer on the world `σ`.  A full
`TeardownLogic` (which includes `void`) is `Option (Teardown σ)`, with `none`
for `void`/`undefined` — the falsy case of the `if (teardown)` test. -/
inductive Teardown (σ : Type) where
  | fn (act : σ → σ)
  | unsub (act : σ → σ)

/-- Body of `Subscription.unsubscribe` (`src/index.ts` lines 69-77): iterate
the registered teardowns in order; a plain function is called directly,
anything else has its `unsubscribe()` method called. -/
def runTeardowns {σ : Type} (tds : List (Teardown σ)) (w : σ) : σ :=
  tds.foldl (fun w td =>
    match td with
    | Teardown.fn act => act w
    | Teardown.unsub act => act w) w

/-- Body of `Subscription.add` (`src/index.ts` lines 78-82): push the teardown
onto `_teardowns` iff it is truthy (`none` models `void`/`undefined`, the only
falsy inhabitants of `TeardownLogic`). -/
def addTeardown {σ : Type} (tds : List (Teardown σ)) (td : Option (Teardown σ)) :
    List (Teardown σ) :=
  match td with
  | some td => tds ++ [td]
  | none => tds

/-- `class Subscription` (`src/index.ts` lines 65-83): an ordered registry of
teardown actions. -/
structure Subscription (σ : Type) where
  _teardowns : List (Teardown σ)

/-- `Subscription.unsubscribe` (`src/index.ts` lines 69-77). -/
def Subscription.unsubscribe {σ : Type} (s : Subscription σ) (w : σ) : σ :=
  runTeardowns s._teardowns w

/-- `Subscription.add` (`src/index.ts` lines 78-82). -/
def Subscription.add {σ : Type} (s : Subscription σ) (td : Option (Teardown σ)) :
    Subscription σ :=
  ⟨addTeardown s._teardowns td⟩

/-- `Partial<Observer<T>>`: each of the three capabilities may be absent
(`none`).  A present callback is its effect on the world `σ`. -/
structure PObserver (T E σ : Type) where
  next? : Option (T → σ → σ)
  error? : Option (E → σ → σ)
  complete? : Option (σ → σ)

/-- `class Subscriber extends Subscription` (`src/index.ts` lines 86-123):
the wrapped (possibly partial) observer, the `isStopped` flag, and the
inherited teardown registry (inheritance flattened into a field). -/
structure Subscriber (T E σ : Type) where
  observer : PObserver T E σ
  isStopped : Bool
  teardowns : List (Teardown σ)

/-- `Subscriber.next` (`src/index.ts` lines 96-101): forward to
`observer.next(value)` iff the wrapped observer defines `next` and the
endpoint is not stopped; the endpoint's own state is never changed. -/
def Subscriber.next {T E σ : Type} (s : Subscriber T E σ) (v : T) (w : σ) :
    Subscriber T E σ × σ :=
  match s.observer.next? with
  | some f => if s.isStopped then (s, w) else (s, f v w)
  | none => (s, w)

/-- `Subscriber.error` (`src/index.ts` lines 104-110): unconditionally set
`isStopped`, then forward to `observer.error(value)` iff defined.  No check of
the previous `isStopped` value, and no teardown runs. -/
def Subscriber.error {T E σ : Type} (s : Subscriber T E σ) (e : E) (w : σ) :
    Subscriber T E σ × σ :=
  ({ s with isStopped := true },
   match s.observer.error? with
   | some f => f e w
   | none => w)

/-- `Subscriber.unsubscribe`, inherited from `Subscription`
(`src/index.ts` lines 69-77): run the registered teardowns in order.  It does
not touch `isStopped` (the result is only a new world, the endpoint state is
unchanged). -/
def Subscriber.unsubscribe {T E σ : Type} (s : Subscriber T E σ) (w : σ) : σ :=
  runTeardowns s.teardowns w

/-- `Subscriber.add`, inherited from `Subscription` (`src/index.ts`
lines 78-82). -/
def Subscriber.add {T E σ : Type} (s : Subscriber T E σ) (td : Option (Teardown σ)) :
    Subscriber T E σ :=
  { s with teardowns := addTeardown s.teardowns td }

/-- `Subscriber.complete` (`src/index.ts` lines 113-122): unconditionally set
`isStopped`, forward to `observer.complete()` iff defined, then call its own
`unsubscribe()` (the guard `if (this.unsubscribe)` is always satisfied — the
method always exists), running the registered teardowns.  No check of the
previous `isStopped` value. -/
def Subscriber.complete {T E σ : Type} (s : Subscriber T E σ) (w : σ) :
    Subscriber T E σ × σ :=
  let s2 := { s with isStopped := true }
  let w2 :=
    match s.observer.complete? with
    | some f => f w
    | none => w
  (s2, s2.unsubscribe w2)

/-- External calls a holder of an endpoint can make on it. -/
inductive Call (T E σ : Type) where
  | next (v : T)
  | error (e : E)
  | complete
  | unsub
  | add (td : Option (Teardown σ))

/-- Dispatch one call on an endpooint. -/
def Subscriber.step {T E σ : Type} (s : Subscriber T E σ) (w : σ) :
    Call T E σ → Subscriber T E σ × σ
  | Call.next v => s.next v w
  | Call.error e => s.error e w
  | Call.complete => s.complete w
  | Call.unsub => (s, s.unsubscribe w)
  | Call.add td => (s.add td, w)

/-- Run a sequence of calls on an endpoint. -/
def Subscriber.run {T E σ : Type} (s : Subscriber T E σ) (w : σ) :
    List (Call T E σ) → Subscriber T E σ × σ
  | [] => (s, w)
  | c :: cs =>
    match s.step w c with
    | (s2, w2) => s2.run w2 cs

/-- The canonical trace-recording partial observer: each present capability
appends the corresponding event to the trace. -/
def traceObs {T E : Type} (hasN hasE hasC : Bool) : PObserver T E (List (Ev T E)) where
  next? := if hasN then some (fun v tr => tr ++ [Ev.next v]) else none
  error? := if hasE then some (fun e tr => tr ++ [Ev.error e]) else none
  complete? := if hasC then some (fun tr => tr ++ [Ev.complete]) else none

/-- A labelled teardown action: `(true, id)` is a plain procedure appending
`tdFn id` to the trace, `(false, id)` an `Unsubscribable` appending
`tdUnsub id`. -/
def labeledTd {T E : Type} : Bool × Nat → Teardown (List (Ev T E))
  | (true, id) => Teardown.fn (fun tr => tr ++ [Ev.tdFn id])
  | (false, id) => Teardown.unsub (fun tr => tr ++ [Ev.tdUnsub id])

/-- The trace a list of labelled teardowns appends when invoked in
registration order. -/
def tdEvents {T E : Type} : List (Bool × Nat) → List (Ev T E)
  | [] => []
  | (true, id) :: rest => Ev.tdFn id :: tdEvents rest
  | (false, id) :: rest => Ev.tdUnsub id :: tdEvents rest

/-- `class Observable` (`src/index.ts` lines 126-145): a producer function
receiving the freshly built endpoint (and the current world) and returning the
updated endpoint state, the updated world and the `TeardownLogic` it produced,
plus the `type` label. -/
structure Observable (T E σ : Type) where
  producer : Subscriber T E σ → σ → Subscriber T E σ × σ × Option (Teardown σ)
  type : String

/-- `Observable.subscribe` (`src/index.ts` lines 135-139): build a fresh
endpoint around the caller's partial observer, run the producer on it, and
only then `add` the returned teardown to the endpoint, which is returned. -/
def Observable.subscribe {T E σ : Type} (obs : Observable T E σ)
    (observer : PObserver T E σ) (w : σ) : Subscriber T E σ × σ :=
  let s0 : Subscriber T E σ := ⟨observer, false, []⟩
  match obs.producer s0 w with
  | (s1, w1, td) => (s1.add td, w1)

/-- `pipeFromArray` (`src/index.ts` lines 23-62): identity for an empty list,
the sole element itself for a singleton, otherwise a left fold of the input
through every function in order (`fns.reduce((prev, fn) => fn(prev), input)`).
The source composes `UnaryFunction<T, R>` values dynamically typed as `any`;
the embedding types the composable case homogeneously. -/
def pipeFromArray {α : Type} (fns : List (α → α)) : α → α :=
  match fns with
  | [] => fun input => input
  | [f] => f
  | f :: g :: rest => fun input => (f :: g :: rest).foldl (fun prev fn => fn prev) input

/-- `Observable.pipe` (`src/index.ts` lines 142-144): apply `pipeFromArray`
to the operator list and feed `this` through the resulting function. -/
def Observable.pipe {T E σ : Type} (obs : Observable T E σ)
    (operations : List (Observable T E σ → Observable T E σ)) : Observable T E σ :=
  pipeFromArray operations obs

/-- One emission a test producer performs on its endpoint. -/
inductive Emission (T E : Type) where
  | next (v : T)
  | error (e : E)
  | complete

/-- Perform a list of emissions on an endpoint in order, threading its state
and the world through each call. -/
def emitAll {T E σ : Type} :
    Subscriber T E σ → σ → List (Emission T E) → Subscriber T E σ × σ
  | s, w, [] => (s, w)
  | s, w, Emission.next v :: rest =>
    match s.next v w with
    | (s2, w2) => emitAll s2 w2 rest
  | s, w, Emission.error e :: rest =>
    match s.error e w with
    | (s2, w2) => emitAll s2 w2 rest
  | s, w, Emission.complete :: rest =>
    match s.complete w with
    | (s2, w2) => emitAll s2 w2 rest

/-- A cold test source: its producer synchronously performs the given
emissions on the endpoint and returns no teardown. -/
def fromEmissions {T E σ : Type} (es : List (Emission T E)) : Observable T E σ :=
  ⟨fun s w =>
    match emitAll s w es with
    | (s2, w2) => (s2, w2, none), "user"⟩

/-- `map` (`src/index.ts` lines 148-165): the producer of the returned
Observable creates a fresh counter `i := 0`, subscribes to the upstream
Observable with an inline observer that forwards `next v` as
`subscriber.next (project v i)` (post-incrementing `i`) and forwards
`error`/`complete` unchanged, and returns the upstream subscription as its
teardown.  The upstream world is the triple (downstream endpoint state,
counter, downstream world), mirroring the three mutable cells the inline
closures share; the returned teardown re-embeds the upstream subscription's
effect using the endpoint state and counter captured at activation time.
`mapInnerObs` is the inline observer literal of `src/index.ts`
lines 152-162. -/
def mapInnerObs {T R E σ : Type} (project : T → Nat → R) :
    PObserver T E (Subscriber R E σ × Nat × σ) :=
  { next? := some (fun value st =>
      match st.1.next (project value st.2.1) st.2.2 with
      | (d2, w2) => (d2, st.2.1 + 1, w2))
  , error? := some (fun err st =>
      match st.1.error err st.2.2 with
      | (d2, w2) => (d2, st.2.1, w2))
  , complete? := some (fun st =>
      match st.1.complete st.2.2 with
      | (d2, w2) => (d2, st.2.1, w2)) }

/-- `map` (`src/index.ts` lines 148-165): see the comment on
`mapInnerObs` above. -/
def map {T R E σ : Type} (project : T → Nat → R)
    (observable : Observable T E (Subscriber R E σ × Nat × σ)) : Observable R E σ :=
  ⟨fun subscriber w =>
    match Observable.subscribe observable (mapInnerObs project) (subscriber, 0, w) with
    | (sub, st) =>
      (st.1, st.2.2,
       some (Teardown.unsub (fun cw => (sub.unsubscribe (st.1, st.2.1, cw)).2.2)))
  , "map"⟩

/-- The expected downstream trace when `map project` forwards the values `vs`
with indices starting at `i`. -/
def mappedTrace {T R E : Type} (project : T → Nat → R) (i : Nat) :
    List T → List (Ev R E)
  | [] => []
  | v :: vs => Ev.next (project v i) :: mappedTrace project (i + 1) vs

/-- A producer that synchronously calls `complete()` on its endpoint before
returning, and returns an `Unsubscribable` teardown labelled `tdId` — the
shape of the demo producer (`return { unsubscribe: ... }`). -/
def syncCompleteProducer (T E : Type) (tdId : Nat) : Observable T E (List (Ev T E)) :=
  ⟨fun s w =>
    match s.complete w with
    | (s2, w2) => (s2, w2, some (Teardown.unsub (fun tr => tr ++ [Ev.tdUnsub tdId])))
  , "user"⟩

/-!
Timed model for `debounceTime` (`src/index.ts` lines 169-193).

The factory body `debounceTime(delay)` declares `let time: number = 0` before
returning the operator, so the timer-handle slot is shared by every
subscription derived from one factory invocation; the model places that slot
(`time`) in the shared world `DebWorld`, together with the timer queue of the
host.  The only closure ever passed to `setTimeout` is
`() => subscriber.next(value)`, so a pending timer is defunctionalised as the
captured value plus the index `target` of the subscription whose downstream
endpoint it will call.  Timer ids are the host's: positive and fresh
(`nextTimerId` starts at 1), so the initial `time = 0` is falsy and
`clearTimeout` of an absent id is a no-op.
-/

/-- A pending host timer: `id` as returned by `setTimeout`, absolute firing
time, and the defunctionalised callback `() => subscriber.next(value)` as the
captured value and the owning subscription's index. -/
structure TimerRec (V : Type) where
  id : Nat
  fireAt : Nat
  value : V
  target : Nat
deriving DecidableEq

/-- Per-subscription state of a `debounceTime` pipeline: the upstream
endpoint's `isStopped` flag, the downstream endpoint, and its timed trace.
The downstream observer world is `(now, log)` so a trace entry records the
simulated time of its delivery. -/
structure DebSub (V E : Type) where
  upStopped : Bool
  down : Subscriber V E (Nat × List (Nat × Ev V E))
  log : List (Nat × Ev V E)

/-- Shared world of one `debounceTime(delay)` factory invocation: the
simulated clock, the factory-scoped `time` slot, the host's fresh-id counter
and timer queue, and the per-subscription states (indexed by `Nat`). -/
structure DebWorld (V E : Type) where
  now : Nat
  time : Nat
  nextTimerId : Nat
  timers : List (TimerRec V)
  subs : Nat → DebSub V E

/-- Host `clearTimeout(id)`: drop the pending timer with that id, if any. -/
def clearTimeout {V E : Type} (w : DebWorld V E) (id : Nat) : DebWorld V E :=
  { w with timers := w.timers.filter (fun tm => tm.id ≠ id) }

/-- Host `setTimeout(cb, delay)` for the callback
`() => subscriber.next(value)` of subscription `target`: register a fresh
timer due `delay` units from now and return its id. -/
def setTimeout {V E : Type} (w : DebWorld V E) (delay : Nat) (value : V)
    (target : Nat) : Nat × DebWorld V E :=
  (w.nextTimerId,
   { w with
       timers := w.timers ++ [⟨w.nextTimerId, w.now + delay, value, target⟩]
       nextTimerId := w.nextTimerId + 1 })

/-- Update the state of subscription `tgt`. -/
def updateSub {V E : Type} (w : DebWorld V E) (tgt : Nat)
    (f : DebSub V E → DebSub V E) : DebWorld V E :=
  { w with subs := fun j => if j = tgt then f (w.subs j) else w.subs j }

/-- Deliver `subscriber.next v` to the downstream endpoint of subscription
`tgt` (the timer callback's body, and the forwarding target of the inner
observer). -/
def dispatchNext {V E : Type} (w : DebWorld V E) (tgt : Nat) (v : V) : DebWorld V E :=
  updateSub w tgt (fun sb =>
    match sb.down.next v (w.now, sb.log) with
    | (d2, cw) => { sb with down := d2, log := cw.2 })

/-- Deliver `subscriber.error e` to the downstream endpoint of subscription
`tgt`. -/
def dispatchError {V E : Type} (w : DebWorld V E) (tgt : Nat) (e : E) : DebWorld V E :=
  updateSub w tgt (fun sb =>
    match sb.down.error e (w.now, sb.log) with
    | (d2, cw) => { sb with down := d2, log := cw.2 })

/-- Deliver `subscriber.complete` to the downstream endpoint of subscription
`tgt`. -/
def dispatchComplete {V E : Type} (w : DebWorld V E) (tgt : Nat) : DebWorld V E :=
  updateSub w tgt (fun sb =>
    match sb.down.complete (w.now, sb.log) with
    | (d2, cw) => { sb with down := d2, log := cw.2 })

/-- `next` branch of the inner observer of `debounceTime`
(`src/index.ts` lines 174-181): if the shared `time` slot is truthy, clear
that timer; then schedule `() => subscriber.next(value)` after `delay` and
store the new timer id in the shared slot.  Note that the slot read and
written is the same whichever subscription `tgt` the call arrives on. -/
def debNext {V E : Type} (delay : Nat) (tgt : Nat) (v : V) (w : DebWorld V E) :
    DebWorld V E :=
  let w1 := if w.time ≠ 0 then clearTimeout w w.time else w
  match setTimeout w1 delay v tgt with
  | (id, w2) => { w2 with time := id }

/-- `error` branch of the inner observer of `debounceTime`
(`src/index.ts` lines 182-185): `clearTimeout(time)` unconditionally, then
forward the error downstream. -/
def debError {V E : Type} (tgt : Nat) (e : E) (w : DebWorld V E) : DebWorld V E :=
  dispatchError (clearTimeout w w.time) tgt e

/-- `complete` branch of the inner observer of `debounceTime`
(`src/index.ts` lines 186-189): `clearTimeout(time)` unconditionally, then
forward completion downstream. -/
def debComplete {V E : Type} (tgt : Nat) (w : DebWorld V E) : DebWorld V E :=
  dispatchComplete (clearTimeout w w.time) tgt

/-- Delivery of an upstream `next` to subscription `tgt`: it reaches the inner
observer through the upstream endpoint (`Subscriber.next`,
`src/index.ts` lines 96-101), whose inline observer defines all three
methods, so it forwards iff that endpoint is not stopped. -/
def upstreamNext {V E : Type} (delay : Nat) (tgt : Nat) (v : V) (w : DebWorld V E) :
    DebWorld V E :=
  if (w.subs tgt).upStopped then w else debNext delay tgt v w

/-- Delivery of an upstream `error` to subscription `tgt` through the
upstream endpoint (`Subscriber.error`): set its stopped flag, then run the
inner observer's error branch. -/
def upstreamError {V E : Type} (tgt : Nat) (e : E) (w : DebWorld V E) : DebWorld V E :=
  debError tgt e (updateSub w tgt (fun sb => { sb with upStopped := true }))

/-- Delivery of an upstream `complete` to subscription `tgt` through the
upstream endpoint (`Subscriber.complete`): set its stopped flag, then run the
inner observer's complete branch.  (The upstream endpoint's own registry is
empty in the scenarios modelled — the outer source returns no teardown — so
its `unsubscribe()` contributes nothing.) -/
def upstreamComplete {V E : Type} (tgt : Nat) (w : DebWorld V E) : DebWorld V E :=
  debComplete tgt (updateSub w tgt (fun sb => { sb with upStopped := true }))

/-- An externally scheduled upstream event. -/
inductive UpEv (V E : Type) where
  | next (v : V)
  | error (e : E)
  | complete

/-- Deliver one scheduled upstream event at simulated time `t`. -/
def deliver {V E : Type} (delay : Nat) (w : DebWorld V E) (t : Nat) (tgt : Nat)
    (ev : UpEv V E) : DebWorld V E :=
  let w1 := { w with now := t }
  match ev with
  | UpEv.next v => upstreamNext delay tgt v w1
  | UpEv.error e => upstreamError tgt e w1
  | UpEv.complete => upstreamComplete tgt w1

/-- Is the timer due strictly before the deadline (`none` = no deadline)? -/
def dueBefore {V : Type} (deadline : Option Nat) (tm : TimerRec V) : Bool :=
  match deadline with
  | none => true
  | some d => tm.fireAt < d

/-- The earliest-firing timer of a list (first wins ties). -/
def pickEarliest {V : Type} (tms : List (TimerRec V)) : Option (TimerRec V) :=
  tms.foldl (fun acc tm =>
    match acc with
    | none => some tm
    | some best => if tm.fireAt < best.fireAt then some tm else acc) none

/-- Fire one timer: remove it from the queue, advance the clock to its firing
time, and run its callback `() => subscriber.next(value)`. -/
def fireTimer {V E : Type} (w : DebWorld V E) (tm : TimerRec V) : DebWorld V E :=
  let w1 := { w with timers := w.timers.filter (fun t => t.id ≠ tm.id), now := tm.fireAt }
  dispatchNext w1 tm.target tm.value

/-- Fire, in firing order, every pending timer due before the deadline.
Firing never schedules a new timer (the callback only calls
`subscriber.next`), so the queue length is a valid fuel. -/
def fireDueAux {V E : Type} : Nat → Option Nat → DebWorld V E → DebWorld V E
  | 0, _, w => w
  | fuel + 1, deadline, w =>
    match pickEarliest (w.timers.filter (dueBefore deadline)) with
    | none => w
    | some tm => fireDueAux fuel deadline (fireTimer w tm)

/-- Run a schedule of externally timed upstream events: before each delivery
fire every timer due strictly before its time, and after the last delivery
fire everything still pending. -/
def runSchedule {V E : Type} (delay : Nat) :
    List (Nat × Nat × UpEv V E) → DebWorld V E → DebWorld V E
  | [], w => fireDueAux w.timers.length none w
  | (t, tgt, ev) :: rest, w =>
    runSchedule delay rest (deliver delay (fireDueAux w.timers.length (some t) w) t tgt ev)

/-- The timed trace-recording observer for downstream endpoints of debounced
subscriptions: all three methods present, each stamping the simulated time. -/
def timedObs {V E : Type} : PObserver V E (Nat × List (Nat × Ev V E)) where
  next? := some (fun v p => (p.1, p.2 ++ [(p.1, Ev.next v)]))
  error? := some (fun e p => (p.1, p.2 ++ [(p.1, Ev.error e)]))
  complete? := some (fun p => (p.1, p.2 ++ [(p.1, Ev.complete)]))

/-- The world at the moment the subscriptions to one `debounceTime(delay)`
pipeline have been activated and no upstream event has arrived yet:
`time = 0` (the factory's initialiser), no pending timers, fresh ids from 1,
every subscription live with an empty log. -/
def initWorld (V E : Type) : DebWorld V E :=
  { now := 0, time := 0, nextTimerId := 1, timers := []
    subs := fun _ => { upStopped := false, down := ⟨timedObs, false, []⟩, log := [] } }

/-- A mid-run debounce world: the clock at 150, one pending timer (id 1, due
at 200, value 9, owned by subscription 0) whose id sits in the shared `time`
slot, and the next fresh timer id being 2. -/
def sampleDebWorld : DebWorld Nat Nat :=
  { now := 150, time := 1, nextTimerId := 2, timers := [⟨1, 200, 9, 0⟩]
    subs := fun _ => { upStopped := false, down := ⟨timedObs, false, []⟩, log := [] } }

/-! ## Theorems -/

/-- Invoking a list of labelled teardowns appends their events in
registration order. -/
theorem runTeardowns_labeled {T E : Type} (specs : List (Bool × Nat)) :
    ∀ (w : List (Ev T E)),
    runTeardowns (specs.map labeledTd) w = w ++ tdEvents specs := by
  induction specs with
  | nil => intro w; simp [runTeardowns, tdEvents]
  | cons p rest ih =>
    intro w
    obtain ⟨b, id⟩ := p
    cases b <;>
      simp [runTeardowns, labeledTd, tdEvents, List.foldl] at ih ⊢ <;>
      rw [ih] <;> simp

/-- `next` on a stopped endpoint changes nothing and forwards nothing. -/
theorem next_of_stopped {T E σ : Type} (s : Subscriber T E σ) (v : T) (w : σ)
    (h : s.isStopped = true) : s.next v w = (s, w) := by
  unfold Subscriber.next
  cases hn : s.observer.next? <;> simp [h]

/-- No call an endpoint holder can make resets the `isStopped` flag. -/
theorem step_keeps_stopped {T E σ : Type} (s : Subscriber T E σ) (w : σ)
    (c : Call T E σ) (h : s.isStopped = true) :
    ((s.step w c).1).isStopped = true := by
  cases c with
  | next v => rw [Subscriber.step, next_of_stopped s v w h]; exact h
  | error e => simp [Subscriber.step, Subscriber.error]
  | complete => simp [Subscriber.step, Subscriber.complete]
  | unsub => exact h
  | add td => simpa [Subscriber.step, Subscriber.add] using h

/-- No sequence of calls resets the `isStopped` flag. -/
theorem run_keeps_stopped {T E σ : Type} (cs : List (Call T E σ)) :
    ∀ (s : Subscriber T E σ) (w : σ), s.isStopped = true →
    ((s.run w cs).1).isStopped = true := by
  induction cs with
  | nil => intro s w h; exact h
  | cons c cs ih =>
    intro s w h
    rw [Subscriber.run]
    have h2 := step_keeps_stopped s w c h
    exact ih (s.step w c).1 (s.step w c).2 h2

/-- **C1** (corrected): counterexample to "once a terminal event has run, no
subsequent `error()` or `complete()` call is forwarded to the wrapped
observer".  On an endpoint whose first `error 7` has already run (and set
`isStopped`), a second `error 8` is still forwarded, and a subsequent
`complete ()` is forwarded too: the final trace holds all three invocations. -/
theorem terminal_not_at_most_once_cex :
    (((⟨traceObs true true true, false, []⟩ : Subscriber Nat Nat
        (List (Ev Nat Nat))).error 7 []).1.isStopped = true)
    ∧ ((((⟨traceObs true true true, false, []⟩ : Subscriber Nat Nat
        (List (Ev Nat Nat))).error 7 []).1.error 8
          (((⟨traceObs true true true, false, []⟩ : Subscriber Nat Nat
            (List (Ev Nat Nat))).error 7 []).2)).2
        = [Ev.error 7, Ev.error 8]) := by
  constructor <;> rfl

/-- **C1** (amended): a terminal event permanently sets the stopped flag,
which suppresses all later `next` forwarding, but the terminal callbacks
themselves are not guarded by it: every `error e` call — whatever the current
value of `stopped` — forwards to `observer.error` iff defined, and every
`complete ()` call forwards to `observer.complete` iff defined and re-runs
the registered teardowns. -/
theorem terminal_stops_next_not_terminals (T E : Type)
    (hasN hasE hasC stopped : Bool) (tds : List (Bool × Nat)) (e : E) (v : T)
    (w : List (Ev T E)) :
    (((⟨traceObs hasN hasE hasC, stopped, tds.map labeledTd⟩ : Subscriber T E
        (List (Ev T E))).error e w).1.isStopped = true)
    ∧ (((⟨traceObs hasN hasE hasC, stopped, tds.map labeledTd⟩ : Subscriber T E
        (List (Ev T E))).error e w).2
        = w ++ (if hasE then [Ev.error e] else []))
    ∧ (((⟨traceObs hasN hasE hasC, stopped, tds.map labeledTd⟩ : Subscriber T E
        (List (Ev T E))).complete w).1.isStopped = true)
    ∧ (((⟨traceObs hasN hasE hasC, stopped, tds.map labeledTd⟩ : Subscriber T E
        (List (Ev T E))).complete w).2
        = w ++ (if hasC then [Ev.complete] else []) ++ tdEvents tds)
    ∧ ((⟨traceObs hasN hasE hasC, true, tds.map labeledTd⟩ : Subscriber T E
        (List (Ev T E))).next v w
        = (⟨traceObs hasN hasE hasC, true, tds.map labeledTd⟩, w)) := by
  refine ⟨rfl, ?_, rfl, ?_, ?_⟩
  · cases hasE <;> simp [Subscriber.error, traceObs]
  · cases hasC <;>
      simp [Subscriber.complete, Subscriber.unsubscribe, traceObs,
        runTeardowns_labeled, List.append_assoc]
  · exact next_of_stopped _ v w rfl

/-- **C2**: once the stopped flag has been set by `error` (or by `complete`),
any later `next v` — after an arbitrary further sequence of calls on the
endpoint — changes nothing and forwards nothing to the wrapped observer. -/
theorem next_dropped_after_terminal {T E σ : Type} (s : Subscriber T E σ)
    (w : σ) (e : E) (cs : List (Call T E σ)) (v : T) :
    (((s.error e w).1.run (s.error e w).2 cs).1.next v
        ((s.error e w).1.run (s.error e w).2 cs).2
      = ((s.error e w).1.run (s.error e w).2 cs))
    ∧ (((s.complete w).1.run (s.complete w).2 cs).1.next v
        ((s.complete w).1.run (s.complete w).2 cs).2
      = ((s.complete w).1.run (s.complete w).2 cs)) := by
  constructor
  · have hs : ((s.error e w).1).isStopped = true := rfl
    have h2 := run_keeps_stopped cs (s.error e w).1 (s.error e w).2 hs
    exact next_of_stopped _ v _ h2
  · have hs : ((s.complete w).1).isStopped = true := rfl
    have h2 := run_keeps_stopped cs (s.complete w).1 (s.complete w).2 hs
    exact next_of_stopped _ v _ h2

/-- **C3**: `complete ()` unconditionally sets the stopped flag, forwards to
`observer.complete` iff the wrapped observer defines it, and always runs the
registered teardowns afterwards (their events follow the `complete` event in
the trace); `error e` unconditionally sets the stopped flag and forwards to
`observer.error` iff defined, but runs no teardown (the trace gains the
`error` event only). -/
theorem complete_tears_down_error_does_not (T E : Type)
    (hasN hasE hasC stopped : Bool) (tds : List (Bool × Nat)) (e : E)
    (w : List (Ev T E)) :
    (((⟨traceObs hasN hasE hasC, stopped, tds.map labeledTd⟩ : Subscriber T E
        (List (Ev T E))).complete w).1.isStopped = true)
    ∧ (((⟨traceObs hasN hasE hasC, stopped, tds.map labeledTd⟩ : Subscriber T E
        (List (Ev T E))).complete w).2
        = w ++ (if hasC then [Ev.complete] else []) ++ tdEvents tds)
    ∧ (((⟨traceObs hasN hasE hasC, stopped, tds.map labeledTd⟩ : Subscriber T E
        (List (Ev T E))).error e w).1.isStopped = true)
    ∧ (((⟨traceObs hasN hasE hasC, stopped, tds.map labeledTd⟩ : Subscriber T E
        (List (Ev T E))).error e w).2
        = w ++ (if hasE then [Ev.error e] else [])) := by
  refine ⟨rfl, ?_, rfl, ?_⟩
  · cases hasC <;>
      simp [Subscriber.complete, Subscriber.unsubscribe, traceObs,
        runTeardowns_labeled, List.append_assoc]
  · cases hasE <;> simp [Subscriber.error, traceObs]

/-- **C4**: `add` stores an action iff it is non-empty (an empty action is
dropped, a non-empty one is appended, with no de-duplication and no limit),
and one `unsubscribe ()` invokes every stored action exactly once, in
registration order — a plain procedure directly, any other entry through its
`unsubscribe` method (the `tdFn`/`tdUnsub` events). -/
theorem registry_add_filters_unsubscribe_in_order (T E σ : Type)
    (tds : List (Teardown σ)) (td : Teardown σ) (specs : List (Bool × Nat))
    (w : List (Ev T E)) :
    (Subscription.add ⟨tds⟩ none = (⟨tds⟩ : Subscription σ))
    ∧ (Subscription.add ⟨tds⟩ (some td) = (⟨tds ++ [td]⟩ : Subscription σ))
    ∧ (Subscription.unsubscribe ⟨specs.map labeledTd⟩ w = w ++ tdEvents specs) := by
  exact ⟨rfl, rfl, runTeardowns_labeled specs w⟩

/-- **C5**: `pipeFromArray` on an empty list is the identity, on a singleton
is that very function (no wrapper), and otherwise folds the input leftward
through all the functions in order; hence `pipe` with zero operators is the
original Stream itself and `pipe [op]` is exactly `op` applied to it. -/
theorem pipe_composition (T E σ α : Type) (f g : α → α) (rest : List (α → α))
    (input : α) (obs : Observable T E σ)
    (op : Observable T E σ → Observable T E σ) :
    (pipeFromArray ([] : List (α → α)) input = input)
    ∧ (pipeFromArray [f] = f)
    ∧ (pipeFromArray (f :: g :: rest) input
        = (g :: rest).foldl (fun prev fn => fn prev) (f input))
    ∧ (obs.pipe [] = obs)
    ∧ (obs.pipe [op] = op obs) := by
  exact ⟨rfl, rfl, rfl, rfl, rfl⟩

/-- Driving a list of `next` emissions into an endpoint wrapping `map`'s
inline observer forwards every value, projected at consecutive indices, to a
live full-capability downstream endpoint, leaving both endpoints unstopped. -/
theorem emitAll_map_nexts {T R E : Type} (project : T → Nat → R)
    (uts : List (Teardown (Subscriber R E (List (Ev R E)) × Nat × List (Ev R E))))
    (dts : List (Teardown (List (Ev R E)))) (vs : List T) :
    ∀ (i : Nat) (w : List (Ev R E)),
    emitAll (⟨mapInnerObs project, false, uts⟩ : Subscriber T E _)
        ((⟨traceObs true true true, false, dts⟩ : Subscriber R E _), i, w)
        (vs.map Emission.next)
      = (⟨mapInnerObs project, false, uts⟩,
         (⟨traceObs true true true, false, dts⟩, i + vs.length,
          w ++ mappedTrace project i vs)) := by
  induction vs with
  | nil => intro i w; simp [emitAll, mappedTrace]
  | cons v vs ih =>
    intro i w
    have hstep :
        (⟨mapInnerObs project, false, uts⟩ : Subscriber T E _).next v
            ((⟨traceObs true true true, false, dts⟩ : Subscriber R E _), i, w)
          = (⟨mapInnerObs project, false, uts⟩,
             (⟨traceObs true true true, false, dts⟩, i + 1,
              w ++ [Ev.next (project v i)])) := by
      simp [Subscriber.next, mapInnerObs, traceObs]
    simp only [List.map, emitAll, hstep, ih]
    simp [mappedTrace, Nat.add_comm, Nat.add_assoc, Nat.add_left_comm]

/-- **C6**: `map project` forwards each upstream value `v` downstream as
`project v i`, with `i` counting from 0 per producer activation; `error` and
`complete` pass through unchanged.  Concretely, doubling a stream of `1,2,3`
delivers `2,4,6`, and a projection recording its index argument shows the
index sequence `0,1,2`. -/
theorem map_projects_with_indices (T R E : Type) (project : T → Nat → R)
    (vs : List T) (e : E) (w : List (Ev R E)) :
    (((map project (fromEmissions (vs.map Emission.next))).subscribe
        (traceObs true true true) w).2 = w ++ mappedTrace project 0 vs)
    ∧ (((map (fun (v : Nat) (_ : Nat) => v * 2)
          (fromEmissions [Emission.next 1, Emission.next 2, Emission.next 3])).subscribe
        (traceObs true true true) ([] : List (Ev Nat Nat))).2
        = [Ev.next 2, Ev.next 4, Ev.next 6])
    ∧ (((map (E := Nat) (fun (v : Nat) (i : Nat) => (v, i))
          (fromEmissions [Emission.next 1, Emission.next 2, Emission.next 3])).subscribe
        (traceObs true true true) ([] : List (Ev (Nat × Nat) Nat))).2
        = [Ev.next (1, 0), Ev.next (2, 1), Ev.next (3, 2)])
    ∧ (((map project (fromEmissions [Emission.error e])).subscribe
        (traceObs true true true) w).2 = w ++ [Ev.error e])
    ∧ (((map project (fromEmissions [Emission.complete])).subscribe
        (traceObs true true true) w).2 = w ++ [Ev.complete]) := by
  refine ⟨?_, by decide, by decide, ?_, ?_⟩
  · simp [map, Observable.subscribe, fromEmissions, Subscriber.add,
      addTeardown, emitAll_map_nexts]
  · simp [map, Observable.subscribe, fromEmissions, emitAll, Subscriber.add,
      addTeardown, Subscriber.error, mapInnerObs, traceObs]
  · simp [map, Observable.subscribe, fromEmissions, emitAll, Subscriber.add,
      addTeardown, Subscriber.complete, Subscriber.unsubscribe, runTeardowns,
      mapInnerObs, traceObs]

/-- **C9**: when a producer synchronously calls `complete ()` before
returning its teardown, the completion does not invoke that teardown: the
subscribe-time trace ends with the `complete` forwarding only (the registry
was still empty when `complete` ran `unsubscribe`), the returned teardown is
merely stored on the returned endpoint, and only an explicit later
`unsubscribe ()` runs it. -/
theorem sync_complete_does_not_run_late_teardown (T E : Type)
    (hasN hasE hasC : Bool) (tdId : Nat) (w : List (Ev T E)) :
    (((syncCompleteProducer T E tdId).subscribe (traceObs hasN hasE hasC) w).2
        = w ++ (if hasC then [Ev.complete] else []))
    ∧ (((syncCompleteProducer T E tdId).subscribe (traceObs hasN hasE hasC) w).1.teardowns
        = [Teardown.unsub (fun tr => tr ++ [Ev.tdUnsub tdId])])
    ∧ (((syncCompleteProducer T E tdId).subscribe (traceObs hasN hasE hasC) w).1.unsubscribe
          (((syncCompleteProducer T E tdId).subscribe (traceObs hasN hasE hasC) w).2)
        = (((syncCompleteProducer T E tdId).subscribe (traceObs hasN hasE hasC) w).2)
          ++ [Ev.tdUnsub tdId]) := by
  refine ⟨?_, ?_, ?_⟩ <;>
    cases hasC <;>
      simp [syncCompleteProducer, Observable.subscribe, Subscriber.complete,
        Subscriber.unsubscribe, Subscriber.add, addTeardown, runTeardowns,
        traceObs]

/-- **C10**: `unsubscribe ()` on an endpoint leaves the endpoint state — in
particular the stopped flag — untouched (the `unsub` call returns the very
same endpoint), so on a never-terminated endpoint a `next v` issued after
`unsubscribe ()` is still forwarded to the wrapped observer's `next`
handler. -/
theorem unsubscribe_does_not_stop_delivery (T E σ : Type)
    (s : Subscriber T E σ) (w0 : σ) (hasE hasC : Bool)
    (tds : List (Bool × Nat)) (v : T) (w : List (Ev T E)) :
    ((s.step w0 Call.unsub).1 = s)
    ∧ ((⟨traceObs true hasE hasC, false, tds.map labeledTd⟩ : Subscriber T E
        (List (Ev T E))).next v
          ((⟨traceObs true hasE hasC, false, tds.map labeledTd⟩ : Subscriber T E
            (List (Ev T E))).unsubscribe w)
        = (⟨traceObs true hasE hasC, false, tds.map labeledTd⟩,
           (⟨traceObs true hasE hasC, false, tds.map labeledTd⟩ : Subscriber T E
             (List (Ev T E))).unsubscribe w ++ [Ev.next v])) := by
  constructor
  · rfl
  · simp [Subscriber.next, traceObs]

/-- **C7**: `debounceTime` is a trailing-edge debounce.  Generally, an
upstream `next v` on a world whose pending timer (if any) is the one recorded
in the shared slot cancels it and leaves exactly one pending timer, which
delivers `v` to the downstream endpoint `delay` units after the arrival;
concretely, `debounceTime 100` fed values `1,2,3,4` at times `0,30,60,90`
with nothing afterwards delivers exactly one value — the one submitted at
`t = 90` — at `t = 190`, with no timer left pending. -/
theorem debounce_trailing_edge (V E : Type) (delay tgt : Nat) (v : V)
    (w : DebWorld V E)
    (h : w.timers = [] ∨ (w.time ≠ 0 ∧ ∀ tm ∈ w.timers, tm.id = w.time)) :
    ((debNext delay tgt v w).timers = [⟨w.nextTimerId, w.now + delay, v, tgt⟩]
      ∧ (debNext delay tgt v w).time = w.nextTimerId)
    ∧ (((runSchedule (V := Nat) (E := Nat) 100
          [(0, 0, UpEv.next 1), (30, 0, UpEv.next 2), (60, 0, UpEv.next 3),
           (90, 0, UpEv.next 4)] (initWorld Nat Nat)).subs 0).log
        = [(190, Ev.next 4)]
      ∧ (runSchedule (V := Nat) (E := Nat) 100
          [(0, 0, UpEv.next 1), (30, 0, UpEv.next 2), (60, 0, UpEv.next 3),
           (90, 0, UpEv.next 4)] (initWorld Nat Nat)).timers = []) := by
  refine ⟨⟨?_, ?_⟩, by decide, by decide⟩
  · rcases h with h | ⟨h1, h2⟩
    · simp only [debNext, clearTimeout, setTimeout, h]
      split <;> simp [h]
    · simp only [debNext, clearTimeout, setTimeout, if_pos h1]
      simp
      exact h2
  · simp [debNext, clearTimeout, setTimeout]
    split <;> rfl

/-- Witness for `debounce_trailing_edge` at `sampleDebWorld`, `delay = 100`,
value `5`, subscription `0`. -/
theorem debounce_trailing_edge_witness :
    (sampleDebWorld.timers = []
      ∨ (sampleDebWorld.time ≠ 0
        ∧ ∀ tm ∈ sampleDebWorld.timers, tm.id = sampleDebWorld.time))
    ∧ (((debNext 100 0 (5 : Nat) sampleDebWorld).timers
          = [⟨sampleDebWorld.nextTimerId, sampleDebWorld.now + 100, 5, 0⟩]
        ∧ (debNext 100 0 (5 : Nat) sampleDebWorld).time
          = sampleDebWorld.nextTimerId)
      ∧ (((runSchedule (V := Nat) (E := Nat) 100
            [(0, 0, UpEv.next 1), (30, 0, UpEv.next 2), (60, 0, UpEv.next 3),
             (90, 0, UpEv.next 4)] (initWorld Nat Nat)).subs 0).log
          = [(190, Ev.next 4)]
        ∧ (runSchedule (V := Nat) (E := Nat) 100
            [(0, 0, UpEv.next 1), (30, 0, UpEv.next 2), (60, 0, UpEv.next 3),
             (90, 0, UpEv.next 4)] (initWorld Nat Nat)).timers = [])) :=
  ⟨Or.inr ⟨by decide, by decide⟩,
   debounce_trailing_edge Nat Nat 100 0 5 sampleDebWorld
     (Or.inr ⟨by decide, by decide⟩)⟩

/-- **C8**: the pending-timer handle of `debounceTime` is the factory-scoped
slot shared by all subscriptions: an upstream `next` arriving on *any*
subscription `tgt` cancels the timer whose id is in the slot — whichever
subscription owns it — and the slot written is the same whichever
subscription writes it.  Concretely, with two subscriptions of one
`debounceTime 100` instance, a value on subscription 0 at `t = 0` followed by
a value on subscription 1 at `t = 10` leaves subscription 0 with no delivery
at all, while subscription 1 receives its value at `t = 110`. -/
theorem debounce_timer_slot_shared (V E : Type) (delay : Nat) (v : V)
    (tgt tgt2 : Nat) (w : DebWorld V E) (h1 : w.time ≠ 0)
    (h2 : w.time < w.nextTimerId) :
    ((∀ tm ∈ (debNext delay tgt v w).timers, tm.id ≠ w.time)
      ∧ (debNext delay tgt v w).time = (debNext delay tgt2 v w).time)
    ∧ ((((runSchedule (V := Nat) (E := Nat) 100
          [(0, 0, UpEv.next 1), (10, 1, UpEv.next 2)] (initWorld Nat Nat)).subs 0).log
        = [])
      ∧ (((runSchedule (V := Nat) (E := Nat) 100
          [(0, 0, UpEv.next 1), (10, 1, UpEv.next 2)] (initWorld Nat Nat)).subs 1).log
        = [(110, Ev.next 2)])) := by
  refine ⟨⟨?_, ?_⟩, by decide, by decide⟩
  · intro tm hm
    simp only [debNext, clearTimeout, setTimeout, if_pos h1] at hm
    rcases List.mem_append.mp hm with hm | hm
    · have := (List.mem_filter.mp hm).2
      simpa using this
    · rcases List.mem_singleton.mp hm with rfl
      exact Nat.ne_of_gt h2
  · simp [debNext, clearTimeout, setTimeout]

/-- Witness for `debounce_timer_slot_shared` at `sampleDebWorld`,
`delay = 100`, value `5`, subscriptions `0` and `1`. -/
theorem debounce_timer_slot_shared_witness :
    (sampleDebWorld.time ≠ 0)
    ∧ (sampleDebWorld.time < sampleDebWorld.nextTimerId)
    ∧ (((∀ tm ∈ (debNext 100 0 (5 : Nat) sampleDebWorld).timers,
          tm.id ≠ sampleDebWorld.time)
        ∧ (debNext 100 0 (5 : Nat) sampleDebWorld).time
          = (debNext 100 1 (5 : Nat) sampleDebWorld).time)
      ∧ ((((runSchedule (V := Nat) (E := Nat) 100
            [(0, 0, UpEv.next 1), (10, 1, UpEv.next 2)] (initWorld Nat Nat)).subs 0).log
          = [])
        ∧ (((runSchedule (V := Nat) (E := Nat) 100
            [(0, 0, UpEv.next 1), (10, 1, UpEv.next 2)] (initWorld Nat Nat)).subs 1).log
          = [(110, Ev.next 2)]))) :=
  ⟨by decide, by decide,
   debounce_timer_slot_shared Nat Nat 100 5 0 1 sampleDebWorld (by decide) (by decide)⟩

end MiniRx
